import Mathlib

/-!
Verification of the game-hub recommendation backend.

The repository contains two near-duplicate implementations of the same
pipeline:
* `functions/index.js` — the index-based, 8-item, summary-included variant
  (namespace `FnApi` below);
* `index.js` — the id-based, 5-item variant (namespace `SrcApi` below).

Each JavaScript function is embedded as a Lean definition over an explicit
data model.  JavaScript `undefined`/`null` field values are modelled with
`Option`; `Date.now()` timestamps are `Int` milliseconds; the Firestore read
and the LLM call are modelled as `Except`-valued inputs to the state-passing
functions that use them.
-/

namespace GameHub

namespace FnApi

/-- A genre object as stored in Firestore documents: `{ name: string }`.
`filterByGenre` in `functions/index.js` reads `gen.name` from these. -/
structure Genre where
  name : String
deriving DecidableEq, Repr

/-- A candidate game document (`doc.data()` in `functions/index.js`).
Fields that the code guards with `|| …` or that may be absent are
`Option`s: `g.name || ""` and `g.genres || []`. -/
structure Game where
  id : Option Int
  name : Option String
  genres : Option (List Genre)
  rating : Option Rat
  slug : Option String
deriving DecidableEq, Repr

/-- JavaScript `(g.name || "")`. -/
def nameOrEmpty (g : Game) : String := g.name.getD ""

/-- JavaScript `(g.genres || [])`. -/
def genreList (g : Game) : List Genre := g.genres.getD []

/-- Embedding of `filterByGenre(candidates, favorites)` from
`functions/index.js` lines 63–84: match favorites against candidate names
case-insensitively, collect the genre names of the matched games, keep
candidates sharing a genre, falling back to the full list whenever the
genre set or the filtered list is empty. -/
def filterByGenre (candidates : List Game) (favorites : List String) : List Game :=
  let favLower := favorites.map (fun f => f.toLower)
  let favGames := candidates.filter (fun g => favLower.contains (nameOrEmpty g).toLower)
  let favGenres := favGames.flatMap (fun g => (genreList g).map Genre.name)
  if favGenres.isEmpty then candidates
  else
    let filtered := candidates.filter (fun g =>
      (genreList g).any (fun gen => favGenres.contains gen.name))
    if filtered.isEmpty then candidates else filtered

/-- The favorite-exclusion step of the `/recommend` handler:
`genreFiltered.filter(g => !favoritesLower.includes((g.name || "").toLowerCase()))`. -/
def excludeFavorites (pool : List Game) (favorites : List String) : List Game :=
  let favoritesLower := favorites.map (fun f => f.toLower)
  pool.filter (fun g => !(favoritesLower.contains (nameOrEmpty g).toLower))

/-- Embedding of the pool-selection logic of the `/recommend` handler
(`functions/index.js` lines 147–164): start from the genre-filtered pool
minus the favorites themselves; if fewer than 8 remain fall back to the
genre-filtered pool; if still fewer than 8 fall back to all candidates. -/
def selectPool (candidates : List Game) (favorites : List String) : List Game :=
  let genreFiltered := filterByGenre candidates favorites
  let pool0 := excludeFavorites genreFiltered favorites
  let pool1 := if pool0.length < 8 then genreFiltered else pool0
  if pool1.length < 8 then candidates else pool1

/-- One item of the model's structured output: `{ index: number, reason: string }`. -/
structure RecItem where
  index : Int
  reason : String
deriving DecidableEq, Repr

/-- An enriched recommendation record as produced by the reconciler:
either all the game's fields plus `reason`, or the degraded shape
`{ id: null, name: null, reason }`. -/
structure Enriched where
  id : Option Int
  name : Option String
  genres : Option (List Genre)
  rating : Option Rat
  slug : Option String
  reason : String
deriving DecidableEq, Repr

/-- The spread `{ ...game, reason: r.reason }`. -/
def enrichedOf (g : Game) (reason : String) : Enriched :=
  { id := g.id, name := g.name, genres := g.genres, rating := g.rating,
    slug := g.slug, reason := reason }

/-- The degraded record `{ id: null, name: null, reason: r.reason }`. -/
def degraded (reason : String) : Enriched :=
  { id := none, name := none, genres := none, rating := none, slug := none,
    reason := reason }

/-- JavaScript array subscripting `pool[i]` with a number `i`: `undefined`
for a negative or too-large index. -/
def jsIndex (pool : List Game) (i : Int) : Option Game :=
  if i < 0 then none else pool[i.toNat]?

/-- Embedding of the reconciliation step (`functions/index.js` lines 242–251):
`llmResult.recommendations.map(r => { const game = pool[r.index]; if (!game)
return { id: null, name: null, reason: r.reason }; return { ...game, reason:
r.reason }; })`. -/
def finalResult (recs : List RecItem) (pool : List Game) : List Enriched :=
  recs.map (fun r =>
    match jsIndex pool r.index with
    | none => degraded r.reason
    | some g => enrichedOf g r.reason)

/-- `const CACHE_TTL_MS = 10 * 60 * 1000;` (ten minutes in milliseconds). -/
def CACHE_TTL_MS : Int := 10 * 60 * 1000

/-- The module-level mutable cache: `let cachedGames = null; let cachedAt = 0;`.
`cachedGames = none` models the JavaScript `null`. -/
structure CacheState where
  cachedGames : Option (List Game)
  cachedAt : Int
deriving DecidableEq, Repr

/-- Result of one call to `loadCandidateGames`: the cache state after the
call, the returned (or thrown) value, and whether a Firestore fetch was
performed during the call. -/
structure LoadResult where
  state : CacheState
  result : Except String (List Game)
  fetched : Bool
deriving Repr

/-- The freshness guard `cachedGames && now - cachedAt < CACHE_TTL_MS`:
an array value (even empty) is truthy, `null` is falsy. -/
def cacheFresh (s : CacheState) (now : Int) : Bool :=
  s.cachedGames.isSome && decide (now - s.cachedAt < CACHE_TTL_MS)

/-- Embedding of `loadCandidateGames(force)` (`functions/index.js` lines
43–60).  `now` is `Date.now()`; `store` is the outcome of
`db.collection("rawgTopGames").get()` mapped to game records, `Except.error`
when the read rejects.  If the fetch throws, the `cachedGames`/`cachedAt`
assignments are never reached, so the state is returned unchanged. -/
def loadCandidateGames (force : Bool) (now : Int) (store : Except String (List Game))
    (s : CacheState) : LoadResult :=
  if !force && cacheFresh s now then
    { state := s, result := Except.ok (s.cachedGames.getD []), fetched := false }
  else
    match store with
    | Except.ok games =>
        { state := { cachedGames := some games, cachedAt := now },
          result := Except.ok games, fetched := true }
    | Except.error e => { state := s, result := Except.error e, fetched := true }

/-- The `favorites` field of a request body: absent, present but not an
array, or an array of strings (`Array.isArray` distinguishes the cases). -/
inductive BodyFavorites where
  | missing
  | nonArray
  | array (xs : List String)
deriving DecidableEq, Repr

/-- Parsed model output `{ summary, recommendations }`. -/
structure ModelOutput where
  summary : String
  recommendations : List RecItem
deriving DecidableEq, Repr

/-- The HTTP responses the `/recommend` handler can produce. -/
inductive HttpResponse where
  | ok (summary : String) (recommendations : List Enriched)
  | badRequest (error : String)
  | serverError (error : String)
deriving DecidableEq, Repr

/-- Result of one `/recommend` request: the response, the cache state after
the request, and whether a store fetch / an LLM call happened. -/
structure HandlerOutcome where
  response : HttpResponse
  state : CacheState
  storeFetched : Bool
  llmCalled : Bool
deriving Repr

/-- Embedding of the `POST /recommend` handler of `functions/index.js`
(lines 126–263, after the auth middleware): check the client is configured,
validate `favorites`, load candidates through the cache, select the pool,
call the LLM (`llm` is the parsed structured output, `Except.error` when the
call or `JSON.parse` throws), and reconcile.  Any throw is caught and mapped
to a 500 response. -/
def recommendHandler (clientConfigured : Bool) (body : BodyFavorites) (now : Int)
    (store : Except String (List Game)) (llm : Except String ModelOutput)
    (s : CacheState) : HandlerOutcome :=
  if !clientConfigured then
    { response := HttpResponse.serverError "OpenAI is not configured on the server",
      state := s, storeFetched := false, llmCalled := false }
  else
    match body with
    | BodyFavorites.array (f :: fs) =>
        let favorites := f :: fs
        let load := loadCandidateGames false now store s
        match load.result with
        | Except.error e =>
            { response := HttpResponse.serverError e, state := load.state,
              storeFetched := load.fetched, llmCalled := false }
        | Except.ok candidates =>
            let pool := selectPool candidates favorites
            match llm with
            | Except.error e =>
                { response := HttpResponse.serverError e, state := load.state,
                  storeFetched := load.fetched, llmCalled := true }
            | Except.ok out =>
                { response := HttpResponse.ok out.summary (finalResult out.recommendations pool),
                  state := load.state, storeFetched := load.fetched, llmCalled := true }
    | _ =>
        { response := HttpResponse.badRequest "favorites must be a non-empty array",
          state := s, storeFetched := false, llmCalled := false }

/-- One entry of the `simplified` list shown to the LLM:
`{ index: idx, name: g.name, genres: g.genres, rating: g.rating }`. -/
structure SimpGame where
  index : Nat
  name : Option String
  genres : Option (List Genre)
  rating : Option Rat
deriving DecidableEq, Repr

/-- `pool.map((g, idx) => ({ index: idx, name: …, genres: …, rating: … }))`. -/
def simplified (pool : List Game) : List SimpGame :=
  pool.enum.map (fun p =>
    { index := p.1, name := p.2.name, genres := p.2.genres, rating := p.2.rating })

/-- `const validIndexes = simplified.map(g => g.index);` — the index domain
handed to the schema's `enum`. -/
def validIndexes (pool : List Game) : List Int :=
  (simplified pool).map (fun g => (g.index : Int))

/-- A JSON value. -/
inductive Json where
  | null
  | bool (b : Bool)
  | num (n : Int)
  | str (s : String)
  | arr (xs : List Json)
  | obj (fields : List (String × Json))

/-- The fragment of the JSON-Schema language used by the handler's
structured-output declaration: `string`, `integer` with an `enum`, `array`
with optional `minItems`/`maxItems`, and `object` with `properties`,
`required` and `additionalProperties`. -/
inductive Schema where
  | string
  | integerEnum (vals : List Int)
  | array (minItems maxItems : Option Nat) (items : Schema)
  | object (properties : List (String × Schema)) (required : List String)
      (additionalProps : Bool)

/-- Property lookup in a schema's `properties` map. -/
def lookupSchema (props : List (String × Schema)) (k : String) : Option Schema :=
  match props with
  | [] => none
  | p :: ps => if p.1 = k then some p.2 else lookupSchema ps k

/-- The `minItems` bound, vacuous when absent. -/
def minOk (mn : Option Nat) (len : Nat) : Bool :=
  match mn with
  | none => true
  | some m => decide (m ≤ len)

/-- The `maxItems` bound, vacuous when absent. -/
def maxOk (mx : Option Nat) (len : Nat) : Bool :=
  match mx with
  | none => true
  | some m => decide (len ≤ m)

mutual

/-- Modelled from the spec: satisfaction of the JSON-Schema fragment above
by a JSON value (the validation the LLM service performs in strict mode —
the validator itself lives in the external service, not in this repository).
An object must carry every `required` key; each of its fields must satisfy
the declared property schema, and fields with undeclared keys are admitted
only when `additionalProperties` is true. -/
def satisfies : Json → Schema → Bool
  | Json.str _, Schema.string => true
  | Json.num n, Schema.integerEnum vals => vals.contains n
  | Json.arr xs, Schema.array mn mx it =>
      minOk mn xs.length && maxOk mx xs.length && satisfiesAll xs it
  | Json.obj fs, Schema.object props req addl =>
      req.all (fun k => fs.any (fun p => p.1 == k)) && satisfiesFields fs props addl
  | _, _ => false
termination_by j _ => sizeOf j
decreasing_by all_goals simp_wf

/-- Every element of the list satisfies the item schema. -/
def satisfiesAll : List Json → Schema → Bool
  | [], _ => true
  | x :: xs, s => satisfies x s && satisfiesAll xs s
termination_by xs _ => sizeOf xs
decreasing_by all_goals (simp_wf <;> omega)

/-- Every field satisfies its declared property schema; undeclared fields
are admitted only when `addl` is true. -/
def satisfiesFields : List (String × Json) → List (String × Schema) → Bool → Bool
  | [], _, _ => true
  | (k, v) :: ps, props, addl =>
      (match lookupSchema props k with
       | some sch => satisfies v sch
       | none => addl) && satisfiesFields ps props addl
termination_by ps _ _ => sizeOf ps
decreasing_by all_goals (simp_wf <;> omega)

end

/-- The `items` sub-schema of the `recommendations` array:
`{ index: integer enum validIndexes, reason: string }`, both required,
`additionalProperties: false`. -/
def recItemSchema (validIdx : List Int) : Schema :=
  Schema.object
    [("index", Schema.integerEnum validIdx), ("reason", Schema.string)]
    ["index", "reason"] false

/-- The `recommendations` sub-schema: an array of exactly 8 items
(`minItems: 8, maxItems: 8`). -/
def recArraySchema (validIdx : List Int) : Schema :=
  Schema.array (some 8) (some 8) (recItemSchema validIdx)

/-- The `schema` object passed in `text.format` by the `/recommend` handler
(`functions/index.js` lines 203–236): an object with a string `summary` and
a `recommendations` array of exactly 8 `{ index, reason }` objects, the
`index` an integer drawn from `validIndexes`, `additionalProperties: false`
at both object levels and both fields `required` at both levels. -/
def recommendationSchema (validIdx : List Int) : Schema :=
  Schema.object
    [("summary", Schema.string),
     ("recommendations", recArraySchema validIdx)]
    ["summary", "recommendations"] false

/-- The full `text.format` payload: `{ type: "json_schema", name:
"game_recommendations", strict: true, schema: … }`. -/
structure ResponseFormat where
  type : String
  name : String
  strict : Bool
  schema : Schema

/-- The structured-output constraint the handler sends with the prompt. -/
def recommendFormat (pool : List Game) : ResponseFormat :=
  { type := "json_schema", name := "game_recommendations", strict := true,
    schema := recommendationSchema (validIndexes pool) }

/-- The prompt template text before the favorites interpolation. -/
def promptIntroA : String := "\nUser favorites: "

/-- The prompt template text between the favorites interpolation and the
serialized candidate list. -/
def promptIntroB : String :=
  ".\n\nYou are a game recommendation engine.\nYou MUST ONLY recommend from the following candidate games array.\nEach game has a numeric \"index\". Use this \"index\" to reference games.\nDO NOT invent new games or indices that are not in the list.\n\nCandidate games (JSON array):\n"

/-- The part of the prompt template before the serialized candidate list,
including the favorites interpolation (`favorites.join(", ")`). -/
def promptIntro (favorites : List String) : String :=
  promptIntroA ++ String.intercalate ", " favorites ++ promptIntroB

/-- The part of the prompt template after the serialized candidate list. -/
def promptOutro : String :=
  "\n\nFrom ONLY these candidate games:\n\n1. Select **8 games** the user is most likely to enjoy.\n2. Provide a **summary** explaining WHY (overall reasoning).\n\nReturn ONLY JSON like:\n\x7b\n  \"summary\": string,\n  \"recommendations\": [\n    \x7b \"index\": number, \"reason\": string \x7d\n  ]\n\x7d\n"

/-- The prompt string built by the handler; `serializedPool` stands for
`JSON.stringify(simplified, null, 2)`. -/
def buildPrompt (favorites : List String) (serializedPool : String) : String :=
  promptIntro favorites ++ serializedPool ++ promptOutro

/-- A sample game used to exercise the schema contract. -/
def sampleGame : Game :=
  { id := some 3, name := some "Portal 2", genres := some [⟨"Puzzle"⟩],
    rating := none, slug := none }

/-- A sample conforming recommendation item `{ index: 0, reason: "fits" }`. -/
def sampleItem : Json :=
  Json.obj [("index", Json.num 0), ("reason", Json.str "fits")]

/-- A sample conforming model output with 8 copies of `sampleItem`. -/
def sampleOutput : Json :=
  Json.obj
    [("summary", Json.str "puzzle fan"),
     ("recommendations",
       Json.arr [sampleItem, sampleItem, sampleItem, sampleItem,
         sampleItem, sampleItem, sampleItem, sampleItem])]

end FnApi

namespace SrcApi

/-- A candidate game as normalized by `loadCandidateGames` in `index.js`:
`{ id: doc.id…, name, genres: (genres || []).map(g => g.name), rating, slug }`.
The genre names are plain strings after normalization; fields read from the
document may still be absent, hence the `Option`s. -/
structure Game where
  id : Option Int
  name : Option String
  genres : List String
  rating : Option Rat
  slug : Option String
deriving DecidableEq, Repr

/-- JavaScript `(g.name || "")`. -/
def nameOrEmpty (g : Game) : String := g.name.getD ""

/-- Embedding of `filterByGenre(candidates, favorites)` from `index.js`
lines 70–96: the same algorithm as the `functions/index.js` variant, over
already-normalized genre name strings. -/
def filterByGenre (candidates : List Game) (favorites : List String) : List Game :=
  let favLower := favorites.map (fun f => f.toLower)
  let favGames := candidates.filter (fun g => favLower.contains (nameOrEmpty g).toLower)
  let favGenres := favGames.flatMap (fun g => g.genres)
  if favGenres.isEmpty then candidates
  else
    let filtered := candidates.filter (fun g =>
      g.genres.any (fun genre => favGenres.contains genre))
    if filtered.isEmpty then candidates else filtered

/-- One item of the model output in the id-based variant:
`{ id: number, reason: string }`. -/
structure RecItemId where
  id : Int
  reason : String
deriving DecidableEq, Repr

/-- An enriched record of the id-based reconciler; the degraded shape here
is `{ id: r.id, name: null, reason }`. -/
structure Enriched where
  id : Option Int
  name : Option String
  genres : Option (List String)
  rating : Option Rat
  slug : Option String
  reason : String
deriving DecidableEq, Repr

/-- The spread `{ ...game, reason: r.reason }`. -/
def enrichedOf (g : Game) (reason : String) : Enriched :=
  { id := g.id, name := g.name, genres := some g.genres, rating := g.rating,
    slug := g.slug, reason := reason }

/-- The degraded record `{ id: r.id, name: null, reason: r.reason }`. -/
def degradedOf (r : RecItemId) : Enriched :=
  { id := some r.id, name := none, genres := none, rating := none, slug := none,
    reason := r.reason }

/-- Embedding of the reconciliation step of `index.js` (lines 203–214):
`llmResult.recommendations.map(r => { const game = candidates.find(g =>
g.id === r.id); if (!game) return { id: r.id, name: null, reason: r.reason };
return { ...game, reason: r.reason }; })`.  The lookup runs over the full
`candidates` list, not over the genre-filtered list that was serialized
into the prompt. -/
def finalResult (recs : List RecItemId) (candidates : List Game) : List Enriched :=
  recs.map (fun r =>
    match candidates.find? (fun g => g.id == some r.id) with
    | none => degradedOf r
    | some g => enrichedOf g r.reason)

end SrcApi

/-! Theorems.  The claim theorems below are stated over the embeddings
above; each is preceded by shared helper lemmas where needed. -/

namespace FnApi

lemma filterByGenre_eq_or_filter (candidates : List Game) (favorites : List String) :
    filterByGenre candidates favorites = candidates ∨
    ∃ p, filterByGenre candidates favorites = candidates.filter p := by
  unfold filterByGenre
  dsimp only
  split
  · exact Or.inl rfl
  · split
    · exact Or.inl rfl
    · exact Or.inr ⟨_, rfl⟩

lemma filterByGenre_sublist (candidates : List Game) (favorites : List String) :
    (filterByGenre candidates favorites).Sublist candidates := by
  rcases filterByGenre_eq_or_filter candidates favorites with h | ⟨p, h⟩
  · rw [h]
  · rw [h]; exact List.filter_sublist candidates

lemma filterByGenre_length_le (candidates : List Game) (favorites : List String) :
    (filterByGenre candidates favorites).length ≤ candidates.length :=
  (filterByGenre_sublist candidates favorites).length_le

lemma excludeFavorites_sublist (pool : List Game) (favorites : List String) :
    (excludeFavorites pool favorites).Sublist pool :=
  List.filter_sublist pool

/-- C1: every model-output item with an index inside `[0, |pool|)` is mapped
to `pool[index]`'s fields plus the item's `reason`; an item with an index
outside that range yields the degraded record with null identity fields and
the reason preserved; no item is dropped, so the output has exactly one
record per item. -/
theorem c1_reconciler_exact (pool : List Game) (recs : List RecItem) :
    (finalResult recs pool).length = recs.length ∧
    (∀ (k : Nat) (r : RecItem) (g : Game), recs[k]? = some r → 0 ≤ r.index →
      pool[r.index.toNat]? = some g →
      (finalResult recs pool)[k]? = some (enrichedOf g r.reason)) ∧
    (∀ (k : Nat) (r : RecItem), recs[k]? = some r →
      (r.index < 0 ∨ (pool.length : Int) ≤ r.index) →
      (finalResult recs pool)[k]? = some (degraded r.reason)) := by
  refine ⟨by simp [finalResult], ?_, ?_⟩
  · intro k r g hk h0 hg
    have hj : jsIndex pool r.index = some g := by
      unfold jsIndex
      rw [if_neg (by omega)]
      exact hg
    simp [finalResult, hk, hj]
  · intro k r hk hout
    have hj : jsIndex pool r.index = none := by
      unfold jsIndex
      rcases hout with h | h
      · rw [if_pos h]
      · rw [if_neg (by omega)]
        exact List.getElem?_eq_none (by omega)
    simp [finalResult, hk, hj]

/-- Witness for C1 at a pool of one game and items with indices 0, 3 and -2. -/
theorem c1_reconciler_exact_witness :
    (finalResult [⟨0, "ok"⟩, ⟨3, "far"⟩, ⟨-2, "neg"⟩]
        [⟨some 7, some "Celeste", some [⟨"Platformer"⟩], none, none⟩])[0]? =
      some (enrichedOf ⟨some 7, some "Celeste", some [⟨"Platformer"⟩], none, none⟩ "ok") ∧
    (finalResult [⟨0, "ok"⟩, ⟨3, "far"⟩, ⟨-2, "neg"⟩]
        [⟨some 7, some "Celeste", some [⟨"Platformer"⟩], none, none⟩])[1]? =
      some (degraded "far") ∧
    (finalResult [⟨0, "ok"⟩, ⟨3, "far"⟩, ⟨-2, "neg"⟩]
        [⟨some 7, some "Celeste", some [⟨"Platformer"⟩], none, none⟩])[2]? =
      some (degraded "neg") := by
  have h := c1_reconciler_exact
    [⟨some 7, some "Celeste", some [⟨"Platformer"⟩], none, none⟩]
    [⟨0, "ok"⟩, ⟨3, "far"⟩, ⟨-2, "neg"⟩]
  exact ⟨h.2.1 0 ⟨0, "ok"⟩ ⟨some 7, some "Celeste", some [⟨"Platformer"⟩], none, none⟩
      rfl (by decide) rfl,
    h.2.2 1 ⟨3, "far"⟩ rfl (Or.inr (by decide)),
    h.2.2 2 ⟨-2, "neg"⟩ rfl (Or.inl (by decide))⟩

/-- C2: whenever the full candidate set has at least 8 entries the selected
pool has at least 8 entries; with fewer than 8 candidates the selector
returns the full candidate set. -/
theorem c2_selectPool_size (candidates : List Game) (favorites : List String) :
    (8 ≤ candidates.length → 8 ≤ (selectPool candidates favorites).length) ∧
    (candidates.length < 8 → selectPool candidates favorites = candidates) := by
  constructor
  · intro h8
    unfold selectPool
    dsimp only
    split <;> (try split) <;> omega
  · intro hlt
    have h1 := filterByGenre_length_le candidates favorites
    have h2 := (excludeFavorites_sublist (filterByGenre candidates favorites) favorites).length_le
    unfold selectPool
    dsimp only
    have hp1 : (if (excludeFavorites (filterByGenre candidates favorites) favorites).length < 8
        then filterByGenre candidates favorites
        else excludeFavorites (filterByGenre candidates favorites) favorites).length < 8 := by
      split <;> omega
    rw [if_pos hp1]

/-- Witness for C2 with three candidates sharing no names with favorites. -/
theorem c2_selectPool_size_witness :
    selectPool [⟨none, some "A", none, none, none⟩, ⟨none, some "B", none, none, none⟩,
      ⟨none, some "C", none, none, none⟩] ["A"] =
    [⟨none, some "A", none, none, none⟩, ⟨none, some "B", none, none, none⟩,
      ⟨none, some "C", none, none, none⟩] :=
  (c2_selectPool_size [⟨none, some "A", none, none, none⟩,
    ⟨none, some "B", none, none, none⟩, ⟨none, some "C", none, none, none⟩] ["A"]).2
    (by decide)

/-- C3: the three selector stages form the chain exclusion-filtered ⊆
genre-filtered ⊆ full candidates, and the selector returns the narrowest
stage of size at least 8, defaulting to the full candidate set when no
stage reaches that floor. -/
theorem c3_selectPool_widening (candidates : List Game) (favorites : List String) :
    (excludeFavorites (filterByGenre candidates favorites) favorites).Sublist
      (filterByGenre candidates favorites) ∧
    (filterByGenre candidates favorites).Sublist candidates ∧
    (8 ≤ (excludeFavorites (filterByGenre candidates favorites) favorites).length →
      selectPool candidates favorites =
        excludeFavorites (filterByGenre candidates favorites) favorites) ∧
    ((excludeFavorites (filterByGenre candidates favorites) favorites).length < 8 →
      8 ≤ (filterByGenre candidates favorites).length →
      selectPool candidates favorites = filterByGenre candidates favorites) ∧
    ((excludeFavorites (filterByGenre candidates favorites) favorites).length < 8 →
      (filterByGenre candidates favorites).length < 8 →
      selectPool candidates favorites = candidates) := by
  refine ⟨excludeFavorites_sublist _ _, filterByGenre_sublist _ _, ?_, ?_, ?_⟩
  · intro h8
    unfold selectPool
    dsimp only
    rw [if_neg (show ¬ (excludeFavorites (filterByGenre candidates favorites) favorites).length < 8
          by omega),
        if_neg (show ¬ (excludeFavorites (filterByGenre candidates favorites) favorites).length < 8
          by omega)]
  · intro hx hg
    unfold selectPool
    dsimp only
    rw [if_pos hx, if_neg (by omega)]
  · intro hx hg
    unfold selectPool
    dsimp only
    rw [if_pos hx, if_pos hg]

/-- Witness for C3: with one candidate both narrow stages are below the
floor, so the selector returns the full candidate set. -/
theorem c3_selectPool_widening_witness :
    selectPool [⟨none, some "Hades", none, none, none⟩] ["Hades"] =
      [⟨none, some "Hades", none, none, none⟩] := by
  have h1 := filterByGenre_length_le [⟨none, some "Hades", none, none, none⟩] ["Hades"]
  have h2 := (excludeFavorites_sublist
    (filterByGenre [⟨none, some "Hades", none, none, none⟩] ["Hades"]) ["Hades"]).length_le
  have hc : ([⟨none, some "Hades", none, none, none⟩] : List Game).length = 1 := rfl
  exact (c3_selectPool_widening [⟨none, some "Hades", none, none, none⟩] ["Hades"]).2.2.2.2
    (by omega) (by omega)

/-- C4: for a non-empty candidate list, `filterByGenre` never returns an
empty pool. -/
theorem c4_filterByGenre_nonempty (candidates : List Game) (favorites : List String)
    (h : candidates ≠ []) : filterByGenre candidates favorites ≠ [] := by
  unfold filterByGenre
  dsimp only
  split
  · exact h
  · split
    · exact h
    · rename_i hne
      simpa using hne

/-- Witness for C4 at a one-element candidate list. -/
theorem c4_filterByGenre_nonempty_witness :
    filterByGenre [⟨none, some "Doom", some [⟨"Shooter"⟩], none, none⟩] ["Doom"] ≠ [] :=
  c4_filterByGenre_nonempty [⟨none, some "Doom", some [⟨"Shooter"⟩], none, none⟩]
    ["Doom"] (by decide)

/-- C5: when no favorite equals any candidate's (defaulted) name under
case-insensitive comparison, `filterByGenre` returns its input unchanged. -/
theorem c5_filterByGenre_identity (candidates : List Game) (favorites : List String)
    (h : ∀ f ∈ favorites, ∀ g ∈ candidates, f.toLower ≠ (nameOrEmpty g).toLower) :
    filterByGenre candidates favorites = candidates := by
  unfold filterByGenre
  dsimp only
  have hfav : candidates.filter
      (fun g => (favorites.map (fun f => f.toLower)).contains (nameOrEmpty g).toLower) = [] := by
    rw [List.filter_eq_nil_iff]
    intro g hg
    simp only [List.contains_iff_exists_mem_beq, List.mem_map, beq_iff_eq, not_exists]
    rintro x ⟨⟨f, hf, rfl⟩, hfx⟩
    exact h f hf g hg hfx.symm
  rw [hfav]
  simp

lemma string_toLower_data (s : String) :
    s.toLower = String.mk (s.data.map Char.toLower) := by
  cases s with
  | mk data =>
    have h := String.mapAux_of_valid Char.toLower [] data
    simpa [String.toLower, String.map] using h

/-- Witness for C5: one candidate and one favorite whose names provably
differ under case-insensitive comparison, so the filter is the identity. -/
theorem c5_filterByGenre_identity_witness :
    filterByGenre [⟨none, some "Hollow Knight", some [⟨"Metroidvania"⟩], none, none⟩]
      ["Stardew Valley"] =
    [⟨none, some "Hollow Knight", some [⟨"Metroidvania"⟩], none, none⟩] :=
  c5_filterByGenre_identity
    [⟨none, some "Hollow Knight", some [⟨"Metroidvania"⟩], none, none⟩]
    ["Stardew Valley"]
    (by
      intro f hf g hg
      simp only [List.mem_singleton] at hf hg
      subst hf
      subst hg
      simp only [nameOrEmpty, Option.getD, string_toLower_data]
      decide)

lemma load_fresh (s : CacheState) (g : List Game) (now : Int)
    (store : Except String (List Game)) (hg : s.cachedGames = some g)
    (h : now - s.cachedAt < CACHE_TTL_MS) :
    loadCandidateGames false now store s =
      { state := s, result := Except.ok g, fetched := false } := by
  unfold loadCandidateGames
  rw [if_pos]
  · simp [hg]
  · simp [cacheFresh, hg, h]

lemma load_stale (s : CacheState) (now : Int) (store : Except String (List Game))
    (h : cacheFresh s now = false) :
    loadCandidateGames false now store s =
      match store with
      | Except.ok games =>
          { state := { cachedGames := some games, cachedAt := now },
            result := Except.ok games, fetched := true }
      | Except.error e => { state := s, result := Except.error e, fetched := true } := by
  unfold loadCandidateGames
  rw [if_neg]
  simp [h]

/-- C6: the cached value is served exactly while `now - cachedAt <
CACHE_TTL_MS` (TTL = 10 minutes): two non-forced reads inside the window
return the cached snapshot unchanged with no store fetch, while an expired
read, a read with no cached value, and a forced read each perform the one
store fetch of the call. -/
theorem c6_cache_ttl (s : CacheState) (g : List Game) (now₁ now₂ : Int)
    (store₁ store₂ : Except String (List Game))
    (hg : s.cachedGames = some g) :
    CACHE_TTL_MS = 600000 ∧
    ((loadCandidateGames false now₁ store₁ s).fetched = false ↔
      now₁ - s.cachedAt < CACHE_TTL_MS) ∧
    (now₁ - s.cachedAt < CACHE_TTL_MS → now₂ - s.cachedAt < CACHE_TTL_MS →
      (loadCandidateGames false now₁ store₁ s).state = s ∧
      (loadCandidateGames false now₁ store₁ s).result = Except.ok g ∧
      (loadCandidateGames false now₁ store₁ s).fetched = false ∧
      (loadCandidateGames false now₂ store₂
          (loadCandidateGames false now₁ store₁ s).state).result = Except.ok g ∧
      (loadCandidateGames false now₂ store₂
          (loadCandidateGames false now₁ store₁ s).state).fetched = false) ∧
    (CACHE_TTL_MS ≤ now₁ - s.cachedAt →
      (loadCandidateGames false now₁ store₁ s).fetched = true) ∧
    (∀ t : CacheState, t.cachedGames = none →
      (loadCandidateGames false now₁ store₁ t).fetched = true) ∧
    (∀ t : CacheState, (loadCandidateGames true now₁ store₁ t).fetched = true) := by
  refine ⟨rfl, ?_, ?_, ?_, ?_, ?_⟩
  · constructor
    · intro hf
      by_contra hnot
      have hst : cacheFresh s now₁ = false := by
        simp [cacheFresh, hg]
        omega
      rw [load_stale s now₁ store₁ hst] at hf
      cases store₁ <;> simp at hf
    · intro h
      rw [load_fresh s g now₁ store₁ hg h]
  · intro h₁ h₂
    rw [load_fresh s g now₁ store₁ hg h₁]
    refine ⟨rfl, rfl, rfl, ?_, ?_⟩ <;>
      rw [load_fresh s g now₂ store₂ hg h₂]
  · intro h
    have hst : cacheFresh s now₁ = false := by
      simp [cacheFresh, hg]
      omega
    rw [load_stale s now₁ store₁ hst]
    cases store₁ <;> rfl
  · intro t ht
    have hst : cacheFresh t now₁ = false := by
      simp [cacheFresh, ht]
    rw [load_stale t now₁ store₁ hst]
    cases store₁ <;> rfl
  · intro t
    unfold loadCandidateGames
    rw [if_neg (by simp)]
    cases store₁ <;> rfl

/-- Witness for C6 at a populated cache with `cachedAt = 0`: a read at time
1 hits the cache and a read at time 700000 (past the 600000 ms TTL)
fetches. -/
theorem c6_cache_ttl_witness :
    (loadCandidateGames false 1 (Except.error "down")
        { cachedGames := some [], cachedAt := 0 }).result = Except.ok [] ∧
    (loadCandidateGames false 1 (Except.error "down")
        { cachedGames := some [], cachedAt := 0 }).fetched = false ∧
    (loadCandidateGames false 700000 (Except.ok [])
        { cachedGames := some [], cachedAt := 0 }).fetched = true := by
  have h := c6_cache_ttl { cachedGames := some [], cachedAt := 0 } [] 1 2
    (Except.error "down") (Except.error "down") rfl
  have h2 := c6_cache_ttl { cachedGames := some [], cachedAt := 0 } [] 700000 2
    (Except.ok []) (Except.error "down") rfl
  exact ⟨(h.2.2.1 (by decide) (by decide)).2.1,
    (h.2.2.1 (by decide) (by decide)).2.2.1,
    h2.2.2.2.1 (by decide)⟩

/-- C7: a forced reload whose store fetch fails leaves the cache state
(value and timestamp) unchanged, preserving any previously cached value;
on success the cached value and timestamp are both replaced. -/
theorem c7_forced_reload_state (s : CacheState) (now : Int) (e : String)
    (games : List Game) :
    (loadCandidateGames true now (Except.error e) s).state = s ∧
    (loadCandidateGames true now (Except.error e) s).result = Except.error e ∧
    (loadCandidateGames true now (Except.ok games) s).state =
      { cachedGames := some games, cachedAt := now } ∧
    (loadCandidateGames true now (Except.ok games) s).result = Except.ok games := by
  unfold loadCandidateGames
  rw [if_neg (by simp), if_neg (by simp)]
  exact ⟨rfl, rfl, rfl, rfl⟩

/-- C8: a request whose `favorites` field is missing, not an array, or an
empty array gets the 400 response with the exact error message, and neither
the store nor the LLM is touched, whatever the client configuration. -/
theorem c8_invalid_favorites_rejected (body : BodyFavorites) (now : Int)
    (store : Except String (List Game)) (llm : Except String ModelOutput)
    (s : CacheState)
    (h : body = BodyFavorites.missing ∨ body = BodyFavorites.nonArray ∨
      body = BodyFavorites.array []) :
    (recommendHandler true body now store llm s).response =
      HttpResponse.badRequest "favorites must be a non-empty array" ∧
    ∀ cc : Bool, (recommendHandler cc body now store llm s).storeFetched = false ∧
      (recommendHandler cc body now store llm s).llmCalled = false ∧
      (recommendHandler cc body now store llm s).state = s := by
  rcases h with rfl | rfl | rfl <;>
    exact ⟨rfl, fun cc => by cases cc <;> exact ⟨rfl, rfl, rfl⟩⟩

/-- Witness for C8 at an empty favorites array. -/
theorem c8_invalid_favorites_rejected_witness :
    (recommendHandler true (BodyFavorites.array []) 0 (Except.ok [])
        (Except.error "boom") { cachedGames := none, cachedAt := 0 }).response =
      HttpResponse.badRequest "favorites must be a non-empty array" ∧
    (recommendHandler true (BodyFavorites.array []) 0 (Except.ok [])
        (Except.error "boom") { cachedGames := none, cachedAt := 0 }).storeFetched = false ∧
    (recommendHandler true (BodyFavorites.array []) 0 (Except.ok [])
        (Except.error "boom") { cachedGames := none, cachedAt := 0 }).llmCalled = false := by
  have h := c8_invalid_favorites_rejected (BodyFavorites.array []) 0 (Except.ok [])
    (Except.error "boom") { cachedGames := none, cachedAt := 0 }
    (Or.inr (Or.inr rfl))
  exact ⟨h.1, (h.2 true).1, (h.2 true).2.1⟩

lemma satisfiesAll_iff (xs : List Json) (s : Schema) :
    satisfiesAll xs s = true ↔ ∀ x ∈ xs, satisfies x s = true := by
  induction xs with
  | nil => simp [satisfiesAll]
  | cons x xs ih => simp [satisfiesAll, Bool.and_eq_true, ih]

lemma satisfiesFields_iff (fs : List (String × Json)) (props : List (String × Schema))
    (addl : Bool) :
    satisfiesFields fs props addl = true ↔
      ∀ p ∈ fs, ((∃ sch, lookupSchema props p.1 = some sch ∧ satisfies p.2 sch = true) ∨
        (lookupSchema props p.1 = none ∧ addl = true)) := by
  induction fs with
  | nil => simp [satisfiesFields]
  | cons p ps ih =>
    obtain ⟨k, v⟩ := p
    cases hlk : lookupSchema props k with
    | none => simp [satisfiesFields, hlk, Bool.and_eq_true, ih]
    | some sch => simp [satisfiesFields, hlk, Bool.and_eq_true, ih]

lemma satisfies_string_iff (v : Json) :
    satisfies v Schema.string = true ↔ ∃ s, v = Json.str s := by
  cases v <;> simp [satisfies]

lemma satisfies_integerEnum_iff (dom : List Int) (v : Json) :
    satisfies v (Schema.integerEnum dom) = true ↔ ∃ i, v = Json.num i ∧ i ∈ dom := by
  cases v <;> simp [satisfies, List.contains_iff_exists_mem_beq, beq_iff_eq]

lemma satisfies_array_iff (mn mx : Nat) (it : Schema) (v : Json) :
    satisfies v (Schema.array (some mn) (some mx) it) = true ↔
      ∃ xs, v = Json.arr xs ∧ mn ≤ xs.length ∧ xs.length ≤ mx ∧
        ∀ x ∈ xs, satisfies x it = true := by
  cases v <;> simp [satisfies, minOk, maxOk, Bool.and_eq_true, satisfiesAll_iff, and_assoc]

lemma satisfies_object_iff (props : List (String × Schema)) (req : List String)
    (addl : Bool) (v : Json) :
    satisfies v (Schema.object props req addl) = true ↔
      ∃ fs, v = Json.obj fs ∧
        (∀ k ∈ req, ∃ p ∈ fs, p.1 = k) ∧
        (∀ p ∈ fs, (∃ sch, lookupSchema props p.1 = some sch ∧ satisfies p.2 sch = true) ∨
          (lookupSchema props p.1 = none ∧ addl = true)) := by
  cases v <;>
    simp [satisfies, Bool.and_eq_true, satisfiesFields_iff, List.all_eq_true,
      List.any_eq_true, beq_iff_eq]

lemma lookupSchema_pair (k1 k2 : String) (s1 s2 : Schema) (key : String) :
    lookupSchema [(k1, s1), (k2, s2)] key =
      if k1 = key then some s1 else if k2 = key then some s2 else none := by
  simp [lookupSchema]

lemma satisfies_item_iff (dom : List Int) (x : Json) :
    satisfies x (recItemSchema dom) = true ↔
      ∃ gs, x = Json.obj gs ∧
        (∃ q ∈ gs, q.1 = "index") ∧
        (∃ q ∈ gs, q.1 = "reason") ∧
        (∀ q ∈ gs, q.1 = "index" ∨ q.1 = "reason") ∧
        (∀ q ∈ gs, q.1 = "index" → ∃ i, q.2 = Json.num i ∧ i ∈ dom) ∧
        (∀ q ∈ gs, q.1 = "reason" → ∃ s, q.2 = Json.str s) := by
  rw [recItemSchema, satisfies_object_iff]
  constructor
  · rintro ⟨gs, rfl, hreq, hfields⟩
    refine ⟨gs, rfl, hreq "index" (by simp), hreq "reason" (by simp), ?_, ?_, ?_⟩
    · intro q hq
      rcases hfields q hq with ⟨sch, hsch, _⟩ | ⟨_, hfalse⟩
      · by_cases h1 : q.1 = "index"
        · exact Or.inl h1
        by_cases h2 : q.1 = "reason"
        · exact Or.inr h2
        · rw [lookupSchema_pair,
            if_neg (fun h => h1 h.symm), if_neg (fun h => h2 h.symm)] at hsch
          exact Option.noConfusion hsch
      · cases hfalse
    · intro q hq h1
      rcases hfields q hq with ⟨sch, hsch, hsat⟩ | ⟨hnone, hfalse⟩
      · rw [lookupSchema_pair, h1] at hsch
        simp at hsch
        subst hsch
        exact (satisfies_integerEnum_iff dom q.2).mp hsat
      · cases hfalse
    · intro q hq h2
      rcases hfields q hq with ⟨sch, hsch, hsat⟩ | ⟨hnone, hfalse⟩
      · rw [lookupSchema_pair, h2] at hsch
        simp at hsch
        subst hsch
        exact (satisfies_string_iff q.2).mp hsat
      · cases hfalse
  · rintro ⟨gs, rfl, hidx, hrsn, honly, hival, hsval⟩
    refine ⟨gs, rfl, ?_, ?_⟩
    · intro k hk
      rcases (by simpa using hk : k = "index" ∨ k = "reason") with rfl | rfl
      · exact hidx
      · exact hrsn
    · intro q hq
      by_cases h1 : q.1 = "index"
      · refine Or.inl ⟨Schema.integerEnum dom, ?_, ?_⟩
        · rw [lookupSchema_pair, h1]
          simp
        · rw [satisfies_integerEnum_iff]
          exact hival q hq h1
      · have h2 : q.1 = "reason" := (honly q hq).resolve_left h1
        refine Or.inl ⟨Schema.string, ?_, ?_⟩
        · rw [lookupSchema_pair, h2]
          simp
        · rw [satisfies_string_iff]
          exact hsval q hq h2

lemma satisfies_recArray_iff (dom : List Int) (v : Json) :
    satisfies v (recArraySchema dom) = true ↔
      ∃ items, v = Json.arr items ∧ items.length = 8 ∧
        ∀ x ∈ items, satisfies x (recItemSchema dom) = true := by
  rw [recArraySchema, satisfies_array_iff]
  constructor
  · rintro ⟨xs, rfl, h1, h2, h3⟩
    exact ⟨xs, rfl, by omega, h3⟩
  · rintro ⟨xs, rfl, h1, h3⟩
    exact ⟨xs, rfl, by omega, by omega, h3⟩

lemma validIndexes_eq (pool : List Game) :
    validIndexes pool = (List.range pool.length).map (fun n : Nat => (n : Int)) := by
  have h : List.map Prod.fst pool.enum = List.range pool.length := by
    rw [List.enum, List.enumFrom_map_fst, List.range_eq_range']
  unfold validIndexes simplified
  rw [List.map_map, ← h, List.map_map]
  rfl

set_option maxRecDepth 8000 in
/-- C9: the `/recommend` handler passes the LLM a strict structured-output
format whose schema admits exactly the objects
`{ summary: string, recommendations: [{index, reason}] of length 8 }` with
the `index` an integer in the pool's index domain `[0, |pool|)` and no
unknown fields at either object level; the prompt instruction asks for
exactly 8 games and forbids indices outside the serialized list. -/
theorem c9_prompt_schema_contract (pool : List Game) (v : Json) :
    (satisfies v (recommendationSchema (validIndexes pool)) = true ↔
      ∃ fs, v = Json.obj fs ∧
        (∃ p ∈ fs, p.1 = "summary") ∧
        (∃ p ∈ fs, p.1 = "recommendations") ∧
        (∀ p ∈ fs, p.1 = "summary" ∨ p.1 = "recommendations") ∧
        (∀ p ∈ fs, p.1 = "summary" → ∃ s, p.2 = Json.str s) ∧
        (∀ p ∈ fs, p.1 = "recommendations" → ∃ items, p.2 = Json.arr items ∧
          items.length = 8 ∧
          ∀ x ∈ items, ∃ gs, x = Json.obj gs ∧
            (∃ q ∈ gs, q.1 = "index") ∧
            (∃ q ∈ gs, q.1 = "reason") ∧
            (∀ q ∈ gs, q.1 = "index" ∨ q.1 = "reason") ∧
            (∀ q ∈ gs, q.1 = "index" →
              ∃ i, q.2 = Json.num i ∧ i ∈ validIndexes pool) ∧
            (∀ q ∈ gs, q.1 = "reason" → ∃ s, q.2 = Json.str s))) ∧
    validIndexes pool = (List.range pool.length).map (fun n : Nat => (n : Int)) ∧
    (recommendFormat pool).strict = true ∧
    (recommendFormat pool).type = "json_schema" ∧
    (recommendFormat pool).schema = recommendationSchema (validIndexes pool) ∧
    (∃ a b, promptOutro = a ++ "1. Select **8 games**" ++ b) ∧
    (∀ (favorites : List String) (serialized : String), ∃ a b,
      buildPrompt favorites serialized =
        a ++ "DO NOT invent new games or indices that are not in the list." ++ b) := by
  refine ⟨?_, validIndexes_eq pool, rfl, rfl, rfl, ?_, ?_⟩
  · rw [recommendationSchema, satisfies_object_iff]
    constructor
    · rintro ⟨fs, rfl, hreq, hfields⟩
      refine ⟨fs, rfl, hreq "summary" (by simp), hreq "recommendations" (by simp),
        ?_, ?_, ?_⟩
      · intro p hp
        rcases hfields p hp with ⟨sch, hsch, _⟩ | ⟨_, hfalse⟩
        · by_cases h1 : p.1 = "summary"
          · exact Or.inl h1
          by_cases h2 : p.1 = "recommendations"
          · exact Or.inr h2
          · rw [lookupSchema_pair,
              if_neg (fun h => h1 h.symm), if_neg (fun h => h2 h.symm)] at hsch
            exact Option.noConfusion hsch
        · cases hfalse
      · intro p hp h1
        rcases hfields p hp with ⟨sch, hsch, hsat⟩ | ⟨_, hfalse⟩
        · rw [lookupSchema_pair, h1] at hsch
          simp at hsch
          subst hsch
          exact (satisfies_string_iff p.2).mp hsat
        · cases hfalse
      · intro p hp h2
        rcases hfields p hp with ⟨sch, hsch, hsat⟩ | ⟨_, hfalse⟩
        · rw [lookupSchema_pair, h2] at hsch
          simp at hsch
          subst hsch
          obtain ⟨items, hpv, hlen, hitems⟩ := (satisfies_recArray_iff _ p.2).mp hsat
          exact ⟨items, hpv, hlen,
            fun x hx => (satisfies_item_iff _ x).mp (hitems x hx)⟩
        · cases hfalse
    · rintro ⟨fs, rfl, hsum, hrec, honly, hsval, hrval⟩
      refine ⟨fs, rfl, ?_, ?_⟩
      · intro k hk
        rcases (by simpa using hk : k = "summary" ∨ k = "recommendations") with rfl | rfl
        · exact hsum
        · exact hrec
      · intro p hp
        by_cases h1 : p.1 = "summary"
        · refine Or.inl ⟨Schema.string, ?_, ?_⟩
          · rw [lookupSchema_pair, h1]
            simp
          · rw [satisfies_string_iff]
            exact hsval p hp h1
        · have h2 : p.1 = "recommendations" := (honly p hp).resolve_left h1
          refine Or.inl ⟨recArraySchema (validIndexes pool), ?_, ?_⟩
          · rw [lookupSchema_pair, h2]
            simp
          · rw [satisfies_recArray_iff]
            obtain ⟨items, hpv, hlen, hitems⟩ := hrval p hp h2
            exact ⟨items, hpv, hlen,
              fun x hx => (satisfies_item_iff _ x).mpr (hitems x hx)⟩
  · exact ⟨"\n\nFrom ONLY these candidate games:\n\n",
      " the user is most likely to enjoy.\n2. Provide a **summary** explaining WHY (overall reasoning).\n\nReturn ONLY JSON like:\n\x7b\n  \"summary\": string,\n  \"recommendations\": [\n    \x7b \"index\": number, \"reason\": string \x7d\n  ]\n\x7d\n",
      by decide⟩
  · intro favorites serialized
    refine ⟨promptIntroA ++ String.intercalate ", " favorites ++
        ".\n\nYou are a game recommendation engine.\nYou MUST ONLY recommend from the following candidate games array.\nEach game has a numeric \"index\". Use this \"index\" to reference games.\n",
      "\n\nCandidate games (JSON array):\n" ++ serialized ++ promptOutro, ?_⟩
    have hB : promptIntroB =
        ".\n\nYou are a game recommendation engine.\nYou MUST ONLY recommend from the following candidate games array.\nEach game has a numeric \"index\". Use this \"index\" to reference games.\n" ++
        ("DO NOT invent new games or indices that are not in the list." ++
          "\n\nCandidate games (JSON array):\n") := by decide
    simp only [buildPrompt, promptIntro, hB, String.append_assoc]

/-- Witness for C9: a conforming sample output over a one-game pool. -/
theorem c9_prompt_schema_contract_witness :
    validIndexes [sampleGame] = [(0 : Int)] ∧
    satisfies sampleOutput (recommendationSchema (validIndexes [sampleGame])) = true := by
  have h := c9_prompt_schema_contract [sampleGame] sampleOutput
  have hv : validIndexes [sampleGame] = [(0 : Int)] := by
    rw [h.2.1]
    rfl
  refine ⟨hv, ?_⟩
  rw [h.1]
  refine ⟨_, rfl, by simp [sampleOutput], by simp [sampleOutput], ?_, ?_, ?_⟩
  · intro p hp
    rcases (by simpa [sampleOutput] using hp :
        p = ("summary", Json.str "puzzle fan") ∨
        p = ("recommendations", Json.arr [sampleItem, sampleItem, sampleItem, sampleItem,
          sampleItem, sampleItem, sampleItem, sampleItem])) with rfl | rfl
    · exact Or.inl rfl
    · exact Or.inr rfl
  · intro p hp hps
    rcases (by simpa [sampleOutput] using hp :
        p = ("summary", Json.str "puzzle fan") ∨
        p = ("recommendations", Json.arr [sampleItem, sampleItem, sampleItem, sampleItem,
          sampleItem, sampleItem, sampleItem, sampleItem])) with rfl | rfl
    · exact ⟨"puzzle fan", rfl⟩
    · simp at hps
  · intro p hp hpr
    rcases (by simpa [sampleOutput] using hp :
        p = ("summary", Json.str "puzzle fan") ∨
        p = ("recommendations", Json.arr [sampleItem, sampleItem, sampleItem, sampleItem,
          sampleItem, sampleItem, sampleItem, sampleItem])) with rfl | rfl
    · simp at hpr
    · refine ⟨[sampleItem, sampleItem, sampleItem, sampleItem,
        sampleItem, sampleItem, sampleItem, sampleItem], rfl, rfl, ?_⟩
      intro x hx
      have hxs : x = sampleItem := by
        simpa using hx
      subst hxs
      refine ⟨[("index", Json.num 0), ("reason", Json.str "fits")], rfl,
        ⟨("index", Json.num 0), by simp, rfl⟩,
        ⟨("reason", Json.str "fits"), by simp, rfl⟩, ?_, ?_, ?_⟩
      · intro q hq
        rcases (by simpa using hq :
            q = ("index", Json.num 0) ∨ q = ("reason", Json.str "fits")) with rfl | rfl
        · exact Or.inl rfl
        · exact Or.inr rfl
      · intro q hq hqi
        rcases (by simpa using hq :
            q = ("index", Json.num 0) ∨ q = ("reason", Json.str "fits")) with rfl | rfl
        · exact ⟨0, rfl, by rw [hv]; simp⟩
        · simp at hqi
      · intro q hq hqr
        rcases (by simpa using hq :
            q = ("index", Json.num 0) ∨ q = ("reason", Json.str "fits")) with rfl | rfl
        · simp at hqr
        · exact ⟨"fits", rfl⟩

end FnApi

namespace SrcApi

lemma find?_eq_some_of_first {α : Type} (p : α → Bool) (l : List α) (j : Nat)
    (hj : j < l.length) (hpj : p (l.get ⟨j, hj⟩) = true)
    (hmin : ∀ (j' : Nat) (hj' : j' < l.length), j' < j → p (l.get ⟨j', hj'⟩) = false) :
    l.find? p = some (l.get ⟨j, hj⟩) := by
  induction l generalizing j with
  | nil => exact absurd hj (by simp)
  | cons a as ih =>
    cases j with
    | zero =>
      have hpa : p a = true := hpj
      rw [List.find?_cons_of_pos _ hpa]
      rfl
    | succ n =>
      have ha : p a = false := hmin 0 (by simp) (by omega)
      rw [List.find?_cons_of_neg _ (by simp [ha])]
      exact ih n (by simpa using hj) hpj
        (fun j' hj' hlt => hmin (j' + 1) (by simpa using hj') (by omega))

/-- C10: the id-based reconciler of `index.js` looks each returned id up in
the full candidate list: a returned id equal to some candidate's id yields
the first such candidate's full record plus the reason — also when that
candidate is not in the genre-filtered pool that was serialized into the
prompt — and only an id matching no candidate yields the degraded
`{ id, name: null, reason }` record. -/
theorem c10_reconciler_full_candidates (candidates : List Game)
    (recs : List RecItemId) :
    (finalResult recs candidates).length = recs.length ∧
    ∀ (k : Nat) (r : RecItemId), recs[k]? = some r →
      ((∀ g ∈ candidates, g.id ≠ some r.id) →
        (finalResult recs candidates)[k]? = some (degradedOf r)) ∧
      (∀ (j : Nat) (hj : j < candidates.length),
        (candidates.get ⟨j, hj⟩).id = some r.id →
        (∀ (j' : Nat) (hj' : j' < candidates.length), j' < j →
          (candidates.get ⟨j', hj'⟩).id ≠ some r.id) →
        (finalResult recs candidates)[k]? =
          some (enrichedOf (candidates.get ⟨j, hj⟩) r.reason)) ∧
      (∀ (favorites : List String) (j : Nat) (hj : j < candidates.length),
        (candidates.get ⟨j, hj⟩).id = some r.id →
        (∀ (j' : Nat) (hj' : j' < candidates.length), j' < j →
          (candidates.get ⟨j', hj'⟩).id ≠ some r.id) →
        candidates.get ⟨j, hj⟩ ∉ filterByGenre candidates favorites →
        (finalResult recs candidates)[k]? =
          some (enrichedOf (candidates.get ⟨j, hj⟩) r.reason)) := by
  refine ⟨by simp [finalResult], ?_⟩
  intro k r hk
  have hdeg : (∀ g ∈ candidates, g.id ≠ some r.id) →
      (finalResult recs candidates)[k]? = some (degradedOf r) := by
    intro hnone
    have hfind : candidates.find? (fun g => g.id == some r.id) = none := by
      rw [List.find?_eq_none]
      intro g hgmem
      simpa using hnone g hgmem
    simp [finalResult, hk, hfind]
  have hmain : ∀ (j : Nat) (hj : j < candidates.length),
      (candidates.get ⟨j, hj⟩).id = some r.id →
      (∀ (j' : Nat) (hj' : j' < candidates.length), j' < j →
        (candidates.get ⟨j', hj'⟩).id ≠ some r.id) →
      (finalResult recs candidates)[k]? =
        some (enrichedOf (candidates.get ⟨j, hj⟩) r.reason) := by
    intro j hj hpj hmin
    have hfind := find?_eq_some_of_first (fun g => g.id == some r.id) candidates j hj
      (by simpa using hpj) (fun j' hj' hlt => by simpa using hmin j' hj' hlt)
    simp [finalResult, hk, hfind]
  exact ⟨hdeg, hmain, fun favorites j hj h1 h2 _ => hmain j hj h1 h2⟩

/-- Witness for C10: the id 2 resolves to the second candidate, the id 9 to
the degraded record. -/
theorem c10_reconciler_full_candidates_witness :
    (finalResult [⟨2, "match"⟩, ⟨9, "nope"⟩]
        [⟨some 1, some "A", ["RPG"], none, none⟩,
         ⟨some 2, some "B", ["Puzzle"], none, none⟩])[0]? =
      some (enrichedOf ⟨some 2, some "B", ["Puzzle"], none, none⟩ "match") ∧
    (finalResult [⟨2, "match"⟩, ⟨9, "nope"⟩]
        [⟨some 1, some "A", ["RPG"], none, none⟩,
         ⟨some 2, some "B", ["Puzzle"], none, none⟩])[1]? =
      some (degradedOf ⟨9, "nope"⟩) := by
  have h := c10_reconciler_full_candidates
    [⟨some 1, some "A", ["RPG"], none, none⟩,
     ⟨some 2, some "B", ["Puzzle"], none, none⟩]
    [⟨2, "match"⟩, ⟨9, "nope"⟩]
  exact ⟨(h.2 0 ⟨2, "match"⟩ rfl).2.1 1 (by decide) rfl
      (fun j' hj' hlt => by
        have hj0 : j' = 0 := by omega
        subst hj0
        simp),
    (h.2 1 ⟨9, "nope"⟩ rfl).1 (by decide)⟩

end SrcApi

end GameHub
